import Mathlib

/-!
Verification development for the fusion-generator repository.

Part 1 models the classpath resolver (fusion-generator-jvm/src/resolver.rs
together with error.rs and utils/result_iter.rs).  The filesystem, the zip
library and the bytecode parser are external effects; they are modelled by an
explicit environment `Env` of pure functions, and `resolve` is a faithful
translation of the iterator pipeline in `Resolver::resolve`.

Part 2 models the two renderer implementations: the closed-enum dispatch
`codegen` of fusion-generator-core/src/ts.rs and the trait-based `as_ts`
renderers of src/ast (common.rs, declaration.rs, endpoint.rs, mod.rs).
-/

namespace FusionGen

/-- One item produced by `WalkDir::new(root).into_iter()`.  `entry p` is an
`Ok` entry whose path is valid UTF-8 (so `entry.path().to_str()` succeeds);
`errEntry` is an `Err(walkdir::Error)` item, dropped by `.filter_map(|e| e.ok())`;
`nonUtf8Entry` is an `Ok` entry whose path is not valid UTF-8, dropped by
`.filter_map(|e| e.path().to_str() ...)`. -/
inductive WalkItem where
  | entry (path : String)
  | errEntry
  | nonUtf8Entry
deriving DecidableEq

/-- The composition of `entry.ok()` and `entry.path().to_str()`: the path of a
readable, UTF-8 walk item. -/
def WalkItem.okPath : WalkItem → Option String
  | .entry p => some p
  | .errEntry => none
  | .nonUtf8Entry => none

/-- Abstract `std::io::Error`. -/
structure IOErr where
  msg : String
deriving DecidableEq

/-- Abstract `zip::result::ZipError`. -/
structure ZipErr where
  msg : String
deriving DecidableEq

/-- Abstract `coffer::Error` (class-format failure of the bytecode parser). -/
structure CofferErr where
  msg : String
deriving DecidableEq

/-- Abstract `coffer::Class`: the parsed class record. -/
structure Cls where
  data : String
deriving DecidableEq

/-- `ResolutionError` from fusion-generator-jvm/src/error.rs.  `jarNotFound`
models `JarNotFound`, `ioErr` models `IO(io::Error)` (the `#[from]`
conversion applied to `File::open` failures), `zipErr` models
`Zip(ZipError)`, `cofferErr` models `Coffer(coffer::Error)`. -/
inductive ResolutionError where
  | jarNotFound (name : String)
  | dependencyNotResolved (name : String)
  | ioErr (e : IOErr)
  | zipErr (e : ZipErr)
  | cofferErr (e : CofferErr)
deriving DecidableEq

/-- The five kinds of the resolver failure taxonomy. -/
inductive ErrKind where
  | jarNotFound
  | dependencyNotResolved
  | ioFailure
  | zipFailure
  | cofferFailure
deriving DecidableEq

/-- The kind of a `ResolutionError` (which enum variant it is). -/
def ResolutionError.kind : ResolutionError → ErrKind
  | .jarNotFound _ => .jarNotFound
  | .dependencyNotResolved _ => .dependencyNotResolved
  | .ioErr _ => .ioFailure
  | .zipErr _ => .zipFailure
  | .cofferErr _ => .cofferFailure

/-- The external effects used by `Resolver::resolve`, as pure functions:
`walk` is `WalkDir::new(root)` on a directory root; `openFile` is
`File::open` (the returned `String` stands for the opened file handle and its
bytes); `readClass` is `Class::read_from`; `zipNew` is
`ZipArchive::new(BufReader::new(file))` (the returned `String` stands for the
opened archive); `byName` is `archive.by_name(name).ok()` (the entry handle if
the archive has an entry of that exact name). -/
structure Env where
  walk : String → List WalkItem
  openFile : String → Except IOErr String
  readClass : String → Except CofferErr Cls
  zipNew : String → Except ZipErr String
  byName : String → String → Option String

/-- Rust `str::contains` for a string pattern: substring containment. -/
def strContains (s pat : String) : Bool :=
  decide (pat.data <:+: s.data)

/-- Rust `str::ends_with` for a string pattern: suffix test.  (Stated on the
character lists so that it evaluates by reduction.) -/
def strEndsWith (s pat : String) : Bool :=
  decide (pat.data <:+ s.data)

instance {ε α : Type} [DecidableEq ε] [DecidableEq α] : DecidableEq (Except ε α) := fun x y =>
  match x, y with
  | .error a, .error b =>
    if h : a = b then .isTrue (by rw [h])
    else .isFalse (by intro hc; injection hc; exact h (by assumption))
  | .error _, .ok _ => .isFalse (by intro hc; exact Except.noConfusion hc)
  | .ok _, .error _ => .isFalse (by intro hc; exact Except.noConfusion hc)
  | .ok a, .ok b =>
    if h : a = b then .isTrue (by rw [h])
    else .isFalse (by intro hc; injection hc; exact h (by assumption))

/-- The candidate paths of the directory phase: every walk entry of every
non-`.jar` classpath root that survives `entry.ok()` and `to_str()` and whose
path contains the suffixed dependency name (resolver.rs lines 29-36). -/
def dirEntryPaths (env : Env) (paths : List String) (dep : String) : List String :=
  (((paths.filter fun p => !(strEndsWith p ".jar")).flatMap env.walk).filterMap
      WalkItem.okPath).filter
    fun p => strContains p dep

/-- `File::open` followed by `Class::read_from` on one directory candidate,
with the error conversions of `map_err(ResolutionError::from)` and the `?` in
`flat_map_res` (resolver.rs lines 37-38). -/
def dirLookup (env : Env) (p : String) : Except ResolutionError Cls :=
  ((env.openFile p).mapError ResolutionError.ioErr).bind fun f =>
    (env.readClass f).mapError ResolutionError.cofferErr

/-- The directory-phase item stream (resolver.rs lines 29-38). -/
def dirItems (env : Env) (paths : List String) (dep : String) :
    List (Except ResolutionError Cls) :=
  (dirEntryPaths env paths dep).map (dirLookup env)

/-- `.next()` on the directory phase (resolver.rs line 39). -/
def dirHead (env : Env) (paths : List String) (dep : String) :
    Option (Except ResolutionError Cls) :=
  (dirItems env paths dep).head?

/-- One archive root's lookup: `File::open`, `ZipArchive::new`,
`archive.by_name(dep).ok()` and, if an entry is present, `Class::read_from`
(resolver.rs lines 45-53).  `.ok none` is the designed archive miss. -/
def jarLookup (env : Env) (dep : String) (p : String) :
    Except ResolutionError (Option Cls) :=
  (((env.openFile p).mapError ResolutionError.ioErr).bind fun f =>
      (env.zipNew f).mapError ResolutionError.zipErr).bind fun a =>
    match env.byName a dep with
    | some f => ((env.readClass f).mapError ResolutionError.cofferErr).map some
    | none => .ok none

/-- The archive-phase item stream over the `.jar` roots in order
(resolver.rs lines 41-53). -/
def jarItems (env : Env) (paths : List String) (dep : String) :
    List (Except ResolutionError (Option Cls)) :=
  (paths.filter fun p => strEndsWith p ".jar").map (jarLookup env dep)

/-- `Itertools::filter_map_ok(|class| class)`: errors pass through, `Ok none`
is dropped, `Ok (some c)` becomes `Ok c` (resolver.rs line 54). -/
def filterMapOkId : List (Except ResolutionError (Option Cls)) →
    List (Except ResolutionError Cls)
  | [] => []
  | .error e :: rest => .error e :: filterMapOkId rest
  | .ok none :: rest => filterMapOkId rest
  | .ok (some c) :: rest => .ok c :: filterMapOkId rest

/-- `.next()` on the archive phase (resolver.rs line 55). -/
def jarHead (env : Env) (paths : List String) (dep : String) :
    Option (Except ResolutionError Cls) :=
  (filterMapOkId (jarItems env paths dep)).head?

/-- `Resolver::resolve` (resolver.rs lines 23-58): append the `.class`
suffix, run the directory phase, `.or` the archive phase, and
`.ok_or(DependencyNotResolved(dep))?`. -/
def resolve (env : Env) (paths : List String) (dep0 : String) :
    Except ResolutionError Cls :=
  let dep := dep0 ++ ".class"
  match dirHead env paths dep with
  | some r => r
  | none =>
    match jarHead env paths dep with
    | some r => r
    | none => .error (.dependencyNotResolved dep)

/-!
Part 2a: the AST node types of fusion-generator-core/src/ts.rs.  The Rust
`Rc` sharing is irrelevant to the produced text and is dropped; `Type` is
called `Ty` because `Type` is reserved in Lean.  The parallel node types of
src/ast (common.rs, declaration.rs, endpoint.rs, mod.rs) have field-for-field
identical shapes (`Declaration` = `Struct`, `File<Declaration>` =
`StructModule`, `File<Rc<Vec<Method>>>` = `EndpointModule`), so both renderer
implementations are stated over these same types.
-/

/-- `Ident` (ts.rs lines 29-36, common.rs lines 8-19): a shared name. -/
structure Ident where
  name : String
deriving DecidableEq

/-- `Import` (ts.rs lines 38-51, common.rs lines 29-42). -/
structure Import where
  source : String
  symbol : Ident
deriving DecidableEq

/-- `Type` (ts.rs lines 53-72, common.rs lines 56-70): a possibly generic,
possibly optional type reference.  `inner` is `Option<Rc<Vec<Type>>>`. -/
inductive Ty where
  | mk (name : Ident) (optional : Bool) (inner : Option (List Ty))

/-- The `name` field of a `Ty`. -/
def Ty.name : Ty → Ident
  | .mk n _ _ => n

/-- `Type::is_optional` (ts.rs lines 69-71). -/
def Ty.optional : Ty → Bool
  | .mk _ o _ => o

/-- The `inner` field of a `Ty`. -/
def Ty.inner : Ty → Option (List Ty)
  | .mk _ _ i => i

/-- `Field` (ts.rs lines 74-84, declaration.rs lines 8-18). -/
structure Field where
  name : Ident
  type : Ty

/-- `Struct` (ts.rs lines 86-99); identical to `Declaration`
(declaration.rs lines 35-48). -/
structure Struct where
  fields : Option (List Field)
  name : Ident

/-- `StructModule` (ts.rs lines 101-116); identical to
`DeclarationFile = File<Declaration>` (declaration.rs line 67, mod.rs). -/
structure StructModule where
  content : Option Struct
  imports : Option (List Import)
  name : Ident

/-- `Parameter` (ts.rs lines 118-128, endpoint.rs lines 8-18). -/
structure Parameter where
  name : Ident
  type : Ty

/-- `Method` (ts.rs lines 130-145, endpoint.rs lines 28-50). -/
structure Method where
  name : Ident
  parameters : Option (List Parameter)
  returnType : Ty

/-- `EndpointModule` (ts.rs lines 147-162); identical to
`EndpointFile = File<Rc<Vec<Method>>>` (endpoint.rs line 92, mod.rs). -/
structure EndpointModule where
  content : Option (List Method)
  imports : Option (List Import)
  name : Ident

/-- `EnumVariant` (ts.rs lines 164-171). -/
structure EnumVariant where
  name : Ident

/-- `Enum` (ts.rs lines 173-186). -/
structure Enum where
  variants : Option (List EnumVariant)
  name : Ident

/-- `EnumModule` (ts.rs lines 188-198). -/
structure EnumModule where
  content : Option Enum
  name : Ident

/-- `ASTKind` (ts.rs macro `impl_ast!`, lines 13-27 and 200-213): the closed
tagged union over which `codegen` dispatches. -/
inductive ASTKind where
  | identNode (i : Ident)
  | importNode (i : Import)
  | typeNode (t : Ty)
  | fieldNode (f : Field)
  | structNode (s : Struct)
  | structModuleNode (m : StructModule)
  | parameterNode (p : Parameter)
  | methodNode (m : Method)
  | endpointModuleNode (m : EndpointModule)
  | enumVariantNode (v : EnumVariant)
  | enumNode (e : Enum)
  | enumModuleNode (m : EnumModule)

/-- `CodegenOpts` (ts.rs lines 215-220). -/
inductive CodegenOpts where
  | typeWithoutOptional (val : Bool)
  | moduleHeader (val : String)
  | methodEndpointName (name : Ident)
  | optsNone

/-- The ` | undefined` suffix appended to an optional type in full form
(ts.rs line 253, common.rs line 98). -/
def undefSuffix : String := " | undefined"

/-- The `ASTKind::Ident` arm (ts.rs line 236): the literal name. -/
def codegenIdent (i : Ident) : String := i.name

/-- The `ASTKind::Import` arm (ts.rs lines 237-243). -/
def codegenImport (i : Import) : String :=
  "import type " ++ codegenIdent i.symbol ++ " from \x22" ++ i.source ++ "\x22;"

mutual

/-- The `ASTKind::Type` arm (ts.rs lines 244-273): name, then the generic
argument list, then `\x20| undefined` unless suppressed by
`TypeWithoutOptional(true)` or the type is not optional. -/
def codegenTy : Ty → Bool → String
  | .mk name opt inner, withoutOptional =>
    codegenIdent name ++ codegenInner inner ++
      (if !withoutOptional && opt then undefSuffix else "")

/-- The generic-argument text of a type: `<T1, T2, ...>`, omitted entirely
when `inner` is absent (ts.rs lines 258-270).  Nested arguments render with
`CodegenOpts::None`, hence in full form. -/
def codegenInner : Option (List Ty) → String
  | some val => "<" ++ String.intercalate ", " (codegenTyList val) ++ ">"
  | none => ""

/-- `val.iter().map(|t| codegen(t, CodegenOpts::None))` on generic
arguments. -/
def codegenTyList : List Ty → List String
  | [] => []
  | t :: ts => codegenTy t false :: codegenTyList ts

end

/-- The `ASTKind::Field` arm (ts.rs lines 274-283): two-space indent, name,
`?` when the type is optional, and the type with
`TypeWithoutOptional(true)`. -/
def codegenField (f : Field) : String :=
  "  " ++ codegenIdent f.name ++ (if f.type.optional then "?" else "") ++ ": " ++
    codegenTy f.type true ++ ";"

/-- The `ASTKind::Struct` arm (ts.rs lines 284-295). -/
def codegenStruct (s : Struct) : String :=
  "export default interface " ++ codegenIdent s.name ++ " \x7b\n" ++
    ((s.fields.map fun list => String.intercalate "\n" (list.map codegenField)).getD "") ++
    "\n\x7d"

/-- `codegen_imports` (ts.rs lines 222-231). -/
def codegenImports (imports : Option (List Import)) : Option String :=
  imports.map fun list => String.intercalate "\n" (list.map codegenImport)

/-- The `ASTKind::StructModule` arm (ts.rs lines 296-321), with the header
already extracted from the options. -/
def codegenStructModule (m : StructModule) (header : Option String) : String :=
  ((header.map fun v => v ++ "\n").getD "") ++
    (((codegenImports m.imports).map fun i => i ++ "\n\n").getD "") ++
    ((m.content.map codegenStruct).getD "")

/-- The `ASTKind::Parameter` arm (ts.rs lines 322-328): full-form type. -/
def codegenParameter (p : Parameter) : String :=
  codegenIdent p.name ++ ": " ++ codegenTy p.type false

/-- The `ASTKind::Method` arm (ts.rs lines 329-365) with the endpoint name
already supplied. -/
def codegenMethod (m : Method) (endpointName : Ident) : String :=
  "function _" ++ codegenIdent m.name ++ "(" ++
    (((m.parameters.map fun ps => ps.map codegenParameter).map
        (String.intercalate ", ")).getD "") ++
    "): Promise<" ++ codegenTy m.returnType false ++ "> \x7b\n  client.call(\x22" ++
    codegenIdent endpointName ++ "\x22, \x22" ++ codegenIdent m.name ++ "\x22" ++
    (((m.parameters.map fun ps => ps.map fun p => codegenIdent p.name).map
        fun list => ", \x7b" ++ String.intercalate ", " list ++ "\x7d").getD "") ++
    ");\n\x7d"

/-- The `ASTKind::EndpointModule` arm (ts.rs lines 366-418), with the header
already extracted. -/
def codegenEndpointModule (m : EndpointModule) (header : Option String) : String :=
  ((header.map fun v => v ++ "\n").getD "") ++
    (((codegenImports m.imports).map fun v => v ++ "\n\n").getD "") ++
    ((m.content.map fun items =>
        String.intercalate "\n\n" (items.map fun i => codegenMethod i m.name) ++
          "\n\n").getD "") ++
    ((m.content.map fun items =>
        "export \x7b\n" ++
          String.intercalate "\n" (items.map fun i =>
            "  _" ++ codegenIdent i.name ++ " as " ++ codegenIdent i.name ++ ",") ++
          "\n\x7d;").getD "")

/-- The `ASTKind::EnumVariant` arm (ts.rs lines 419-422): `NAME = \x27NAME\x27`. -/
def codegenEnumVariant (v : EnumVariant) : String :=
  codegenIdent v.name ++ " = \x27" ++ codegenIdent v.name ++ "\x27"

/-- The `ASTKind::Enum` arm (ts.rs lines 423-441). -/
def codegenEnum (e : Enum) : String :=
  "export default enum " ++ codegenIdent e.name ++ " \x7b\n" ++
    ((e.variants.map fun items =>
        String.intercalate "\n" (items.map fun v => "  " ++ codegenEnumVariant v ++ ",")).getD "") ++
    "\n\x7d"

/-- The `ASTKind::EnumModule` arm (ts.rs lines 442-461), with the header
already extracted: header (plus newline) if present, then one further
unconditional newline, then the enum content. -/
def codegenEnumModule (m : EnumModule) (header : Option String) : String :=
  ((header.map fun v => v ++ "\n").getD "") ++ "\n" ++
    ((m.content.map codegenEnum).getD "")

/-- The header delivered by the options: `Some(val)` exactly for
`CodegenOpts::ModuleHeader` (ts.rs lines 297-300, 367-370, 443-446). -/
def headerOf : CodegenOpts → Option String
  | .moduleHeader v => some v
  | _ => none

/-- `codegen` (ts.rs lines 233-463).  The one panic of the renderer —
`ASTKind::Method` without `CodegenOpts::MethodEndpointName` (line 332) — is
modelled as `none`; every other arm is total. -/
def codegen : ASTKind → CodegenOpts → Option String
  | .identNode i, _ => some (codegenIdent i)
  | .importNode i, _ => some (codegenImport i)
  | .typeNode t, opts =>
    some (codegenTy t (match opts with | .typeWithoutOptional v => v | _ => false))
  | .fieldNode f, _ => some (codegenField f)
  | .structNode s, _ => some (codegenStruct s)
  | .structModuleNode m, opts => some (codegenStructModule m (headerOf opts))
  | .parameterNode p, _ => some (codegenParameter p)
  | .methodNode m, opts =>
    match opts with
    | .methodEndpointName n => some (codegenMethod m n)
    | _ => none
  | .endpointModuleNode m, opts => some (codegenEndpointModule m (headerOf opts))
  | .enumVariantNode v, _ => some (codegenEnumVariant v)
  | .enumNode e, _ => some (codegenEnum e)
  | .enumModuleNode m, opts => some (codegenEnumModule m (headerOf opts))

/-!
Part 2b: the trait-based renderers of src/ast — `TSConvertable::as_ts` on
each node type (common.rs, declaration.rs, endpoint.rs) and the
`FileWithOptions` renders (mod.rs).  These are the second, independent
implementation compared against `codegen` in the refinement claim.
-/

/-- `Ident::as_ts` (common.rs lines 23-27). -/
def asTsIdent (i : Ident) : String := i.name

/-- `Import::as_ts` (common.rs lines 46-54). -/
def asTsImport (i : Import) : String :=
  "import type " ++ asTsIdent i.symbol ++ " from \x22" ++ i.source ++ "\x22;"

mutual

/-- `Type::as_ts` (common.rs lines 96-101): full form. -/
def asTsTy : Ty → String
  | .mk name opt inner =>
    asTsIdent name ++ asTsInner inner ++ (if opt then undefSuffix else "")

/-- `Type::inner_as_ts` (common.rs lines 80-91). -/
def asTsInner : Option (List Ty) → String
  | some val => "<" ++ String.intercalate ", " (asTsTyList val) ++ ">"
  | none => ""

/-- `val.iter().map(|t| t.as_ts())` on generic arguments. -/
def asTsTyList : List Ty → List String
  | [] => []
  | t :: ts => asTsTy t :: asTsTyList ts

end

/-- `NonOptionalType::as_ts` (common.rs lines 103-111): name and generics
only, never the optional suffix. -/
def asTsTyNonOpt : Ty → String
  | .mk name _ inner => asTsIdent name ++ asTsInner inner

/-- `Field::as_ts` (declaration.rs lines 22-33). -/
def asTsField (f : Field) : String :=
  "  " ++ asTsIdent f.name ++ (if f.type.optional then "?" else "") ++ ": " ++
    asTsTyNonOpt f.type ++ ";"

/-- `Declaration::as_ts` (declaration.rs lines 52-65); `Declaration` has the
same shape as `Struct`. -/
def asTsDeclaration (s : Struct) : String :=
  "export default interface " ++ asTsIdent s.name ++ " \x7b\n" ++
    ((s.fields.map fun list => String.intercalate "\n" (list.map asTsField)).getD "") ++
    "\n\x7d"

/-- `FileWithOptions::imports_as_ts` (mod.rs lines 34-45). -/
def importsAsTs (imports : Option (List Import)) : Option String :=
  imports.map fun list => String.intercalate "\n" (list.map asTsImport)

/-- `DeclarationFileWithOptions::as_ts` (declaration.rs lines 80-100);
`header` is the option passed to `File::with_options`. -/
def asTsDeclarationFile (m : StructModule) (header : Option String) : String :=
  ((header.map fun v => v ++ "\n").getD "") ++
    (((importsAsTs m.imports).map fun i => i ++ "\n\n").getD "") ++
    ((m.content.map asTsDeclaration).getD "")

/-- `Parameter::as_ts` (endpoint.rs lines 22-26). -/
def asTsParameter (p : Parameter) : String :=
  asTsIdent p.name ++ ": " ++ asTsTy p.type

/-- `MethodWithOptions::as_ts` (endpoint.rs lines 59-90). -/
def asTsMethod (m : Method) (endpointName : Ident) : String :=
  "function _" ++ asTsIdent m.name ++ "(" ++
    (((m.parameters.map fun ps => ps.map asTsParameter).map
        (String.intercalate ", ")).getD "") ++
    "): Promise<" ++ asTsTy m.returnType ++ "> \x7b\n  client.call(\x22" ++
    asTsIdent endpointName ++ "\x22, \x22" ++ asTsIdent m.name ++ "\x22" ++
    (((m.parameters.map fun ps => ps.map fun p => asTsIdent p.name).map
        fun list => ", \x7b" ++ String.intercalate ", " list ++ "\x7d").getD "") ++
    ");\n\x7d"

/-- `EndpointFileWithOptions::as_ts` (endpoint.rs lines 105-147). -/
def asTsEndpointFile (m : EndpointModule) (header : Option String) : String :=
  ((header.map fun v => v ++ "\n").getD "") ++
    (((importsAsTs m.imports).map fun v => v ++ "\n\n").getD "") ++
    ((m.content.map fun items =>
        String.intercalate "\n\n" (items.map fun i => asTsMethod i m.name) ++
          "\n\n").getD "") ++
    ((m.content.map fun items =>
        "export \x7b\n" ++
          String.intercalate "\n" ((items.map fun i => asTsIdent i.name).map fun n =>
            "  _" ++ n ++ " as " ++ n ++ ",") ++
          "\n\x7d;").getD "")

/-!
Predicates used to state the claims, and the concrete environments used by
counterexamples and witnesses.
-/

/-- The space character, used to state that an identifier is a bare symbolic
name. -/
def spaceChar : Char := Char.ofNat 32

/-- An identifier that is a bare symbolic name in the sense of the data
model (no embedded space; the ` | undefined` suffix contains spaces). -/
def Ident.plain (i : Ident) : Prop := spaceChar ∉ i.name.data

instance (i : Ident) : Decidable i.plain := by
  unfold Ident.plain
  infer_instance

/-- The rendered string ends with the ` | undefined` optional-union
suffix. -/
def endsWithUndef (s : String) : Prop := undefSuffix.data <:+ s.data

/-- The rendering context required by a node: a `Method` node requires
`CodegenOpts::MethodEndpointName`; every other node accepts any options. -/
def hasRequiredContext : ASTKind → CodegenOpts → Prop
  | .methodNode _, .methodEndpointName _ => True
  | .methodNode _, _ => False
  | _, _ => True

/-- The options corresponding to `with_options(header)`: a present header
becomes `CodegenOpts::ModuleHeader`, an absent one any non-header option. -/
def headerOpts : Option String → CodegenOpts
  | some v => .moduleHeader v
  | none => .optsNone

/-- Classpath with a directory root `classes` holding no matching file and an
archive root `app.jar` whose archive contains exactly the entry
`com/example/Foo.class`, parsing to the class record `FooClass`. -/
def envC1 : Env where
  walk := fun p => if p = "classes" then [.entry "classes"] else []
  openFile := fun p => if p = "app.jar" then .ok "JARBYTES" else .error ⟨"enoent"⟩
  readClass := fun f => if f = "FOOENTRY" then .ok ⟨"FooClass"⟩ else .error ⟨"bad"⟩
  zipNew := fun f => if f = "JARBYTES" then .ok "ARCH" else .error ⟨"notzip"⟩
  byName := fun a n =>
    if a = "ARCH" ∧ n = "com/example/Foo.class" then some "FOOENTRY" else none

/-- Classpath where `com/example/Foo.class` is present both under the
directory root `cls` (parsing to `DirFoo`) and in the archive root `a.jar`
(parsing to `JarFoo`). -/
def envC2 : Env where
  walk := fun p => if p = "cls" then [.entry "cls/com/example/Foo.class"] else []
  openFile := fun p =>
    if p = "cls/com/example/Foo.class" then .ok "DIRBYTES"
    else if p = "a.jar" then .ok "JB" else .error ⟨"enoent"⟩
  readClass := fun f =>
    if f = "DIRBYTES" then .ok ⟨"DirFoo"⟩
    else if f = "ZE" then .ok ⟨"JarFoo"⟩ else .error ⟨"bad"⟩
  zipNew := fun f => if f = "JB" then .ok "ARCH" else .error ⟨"notzip"⟩
  byName := fun a n =>
    if a = "ARCH" ∧ n = "com/example/Foo.class" then some "ZE" else none

/-- A completely empty/failing environment (used with an empty root list). -/
def envC3 : Env where
  walk := fun _ => []
  openFile := fun _ => .error ⟨"enoent"⟩
  readClass := fun _ => .error ⟨"bad"⟩
  zipNew := fun _ => .error ⟨"notzip"⟩
  byName := fun _ _ => none

/-- Classpath with a directory root `lib` holding only non-matching entries
and an archive root `dep.jar` that opens fine but contains no entries. -/
def envC3w : Env where
  walk := fun p => if p = "lib" then [.entry "lib", .entry "lib/Other.class"] else []
  openFile := fun p => if p = "dep.jar" then .ok "JB" else .error ⟨"enoent"⟩
  readClass := fun _ => .error ⟨"bad"⟩
  zipNew := fun f => if f = "JB" then .ok "ARCH" else .error ⟨"notzip"⟩
  byName := fun _ _ => none

/-- Classpath whose only directory root `droot` yields a single walkdir
error item (e.g. an unreadable subdirectory) and nothing else. -/
def envC4 : Env where
  walk := fun p => if p = "droot" then [.errEntry] else []
  openFile := fun _ => .error ⟨"enoent"⟩
  readClass := fun _ => .error ⟨"bad"⟩
  zipNew := fun _ => .error ⟨"notzip"⟩
  byName := fun _ _ => none

/-- Classpath where the directory root `cls` holds a matching but corrupt
`Foo.class` while the archive root `b.jar` holds a valid one. -/
def envC4w : Env where
  walk := fun p => if p = "cls" then [.entry "cls/Foo.class"] else []
  openFile := fun p =>
    if p = "cls/Foo.class" then .ok "CORRUPT"
    else if p = "b.jar" then .ok "JB" else .error ⟨"enoent"⟩
  readClass := fun f => if f = "ZE" then .ok ⟨"JarFoo"⟩ else .error ⟨"bad"⟩
  zipNew := fun f => if f = "JB" then .ok "ARCH" else .error ⟨"notzip"⟩
  byName := fun a n => if a = "ARCH" ∧ n = "Foo.class" then some "ZE" else none

/-- Classpath whose archive root `a.jar` cannot be opened (`File::open`
fails with `enoent`). -/
def envC9 : Env where
  walk := fun _ => []
  openFile := fun p => if p = "a.jar" then .error ⟨"enoent"⟩ else .error ⟨"other"⟩
  readClass := fun _ => .error ⟨"bad"⟩
  zipNew := fun _ => .error ⟨"notzip"⟩
  byName := fun _ _ => none

/-- A nested optional generic type, `Array<number | undefined>` optional. -/
def tyC5 : Ty := .mk ⟨"Array"⟩ true (some [.mk ⟨"number"⟩ true none])

/-- The optional field `data` of concrete scenario 1. -/
def fieldOptC6 : Field := ⟨⟨"data"⟩, .mk ⟨"Array"⟩ true (some [.mk ⟨"number"⟩ true none])⟩

/-- The required field `name` of concrete scenario 1. -/
def fieldReqC6 : Field := ⟨⟨"name"⟩, .mk ⟨"string"⟩ false none⟩

/-- The enum module of concrete scenario 3. -/
def enumModC7 : EnumModule :=
  ⟨some ⟨some [⟨⟨"VAL1"⟩⟩, ⟨⟨"VAL2"⟩⟩, ⟨⟨"VAL3"⟩⟩], ⟨"MyEnum"⟩⟩, ⟨"MyEnum"⟩⟩

/-- A declaration module without imports. -/
def structModC7 : StructModule := ⟨some ⟨none, ⟨"Empty"⟩⟩, none, ⟨"Empty"⟩⟩

/-- An endpoint module without imports. -/
def epModC7 : EndpointModule :=
  ⟨some [⟨⟨"ping"⟩, none, .mk ⟨"void"⟩ false none⟩], none, ⟨"Ep"⟩⟩

/-- A parameterless method with a plain return type. -/
def methodC8 : Method := ⟨⟨"m"⟩, none, .mk ⟨"void"⟩ false none⟩

/-!
Helper lemmas about the resolver pipeline.
-/

theorem filterMapOkId_all_ok_none (l : List (Except ResolutionError (Option Cls)))
    (h : ∀ x ∈ l, x = .ok none) : filterMapOkId l = [] := by
  induction l with
  | nil => rfl
  | cons x rest ih =>
    have hx := h x (List.mem_cons_self x rest)
    subst hx
    exact ih fun y hy => h y (List.mem_cons_of_mem _ hy)

theorem filterMap_filter_isSome {α β : Type} (f : α → Option β) (l : List α) :
    (l.filter fun a => (f a).isSome).filterMap f = l.filterMap f := by
  induction l with
  | nil => rfl
  | cons a l ih =>
    cases hfa : f a with
    | none => simp [List.filter_cons, List.filterMap_cons, hfa, ih]
    | some b => simp [List.filter_cons, List.filterMap_cons, hfa, ih]

theorem flatMap_walk_filter_isSome (env : Env) (l : List String) :
    ((l.flatMap fun p => (env.walk p).filter fun it => (WalkItem.okPath it).isSome).filterMap
        WalkItem.okPath) =
      (l.flatMap env.walk).filterMap WalkItem.okPath := by
  induction l with
  | nil => rfl
  | cons p l ih =>
    simp only [List.flatMap_cons, List.filterMap_append, ih,
      filterMap_filter_isSome]

/-!
Theorems for the resolver claims.
-/

/-- C1 counterexample: with a directory root holding no match and an archive
root whose archive contains the entry `com/example/Foo.class`, the
dot-qualified request `com.example.Foo` does NOT resolve: the code appends
`.class` to the dotted name without converting dots to slashes, so the
archive lookup misses and resolution fails with dependency-not-resolved. -/
theorem resolve_dotted_name_misses_archive :
    resolve envC1 ["classes", "app.jar"] "com.example.Foo" =
      .error (.dependencyNotResolved "com.example.Foo.class") ∧
    resolve envC1 ["classes", "app.jar"] "com.example.Foo" ≠
      .ok ⟨"FooClass"⟩ :=
  ⟨rfl, by decide⟩

/-- C1 (amended): for a root list of one directory root `d` with no matching
candidate and one archive root `j` whose archive contains the entry for the
slash-qualified name plus `.class`, `resolve` succeeds via the archive phase
and returns the class parsed from that entry. -/
theorem resolve_slash_name_archive_phase (env : Env) (d j name f a g : String) (c : Cls)
    (hd : strEndsWith d ".jar" = false)
    (hj : strEndsWith j ".jar" = true)
    (hnodir : dirEntryPaths env [d, j] (name ++ ".class") = [])
    (hopen : env.openFile j = .ok f)
    (hzip : env.zipNew f = .ok a)
    (hby : env.byName a (name ++ ".class") = some g)
    (hread : env.readClass g = .ok c) :
    resolve env [d, j] name = .ok c := by
  have h1 : dirHead env [d, j] (name ++ ".class") = none := by
    simp [dirHead, dirItems, hnodir]
  have hfilter : ([d, j].filter fun p => strEndsWith p ".jar") = [j] := by
    simp [List.filter_cons, hd, hj]
  have h2 : jarHead env [d, j] (name ++ ".class") = some (.ok c) := by
    unfold jarHead jarItems
    rw [hfilter]
    simp [jarLookup, Except.mapError, Except.bind, hopen, hzip, hby, hread,
      filterMapOkId]
  simp [resolve, h1, h2]

/-- C1 witness: the concrete scenario of the claim with the slash-qualified
name `com/example/Foo` succeeds via the archive phase. -/
theorem resolve_slash_name_archive_phase_witness :
    resolve envC1 ["classes", "app.jar"] "com/example/Foo" = .ok ⟨"FooClass"⟩ :=
  resolve_slash_name_archive_phase envC1 "classes" "app.jar" "com/example/Foo"
    "JARBYTES" "ARCH" "FOOENTRY" ⟨"FooClass"⟩ rfl rfl rfl rfl rfl rfl rfl

/-- C2: whenever the directory phase finds and parses a candidate
(`dirHead = some (ok c)`), `resolve` returns exactly that class — whatever
any archive root contains — and the same result is returned for ANY root
list with the same directory roots and the same archive roots in the same
relative order within each kind, i.e. regardless of the interleaving of the
two kinds. -/
theorem resolve_directory_priority (env : Env) (paths : List String) (name : String)
    (c : Cls) (h : dirHead env paths (name ++ ".class") = some (.ok c)) :
    resolve env paths name = .ok c ∧
    ∀ paths' : List String,
      paths'.filter (fun p => !(strEndsWith p ".jar")) =
        paths.filter (fun p => !(strEndsWith p ".jar")) →
      paths'.filter (fun p => strEndsWith p ".jar") =
        paths.filter (fun p => strEndsWith p ".jar") →
      resolve env paths' name = .ok c := by
  constructor
  · simp [resolve, h]
  · intro paths' hdirEq _hjarEq
    have hdir' : dirHead env paths' (name ++ ".class") =
        dirHead env paths (name ++ ".class") := by
      unfold dirHead dirItems dirEntryPaths
      rw [hdirEq]
    simp [resolve, hdir', h]

/-- C2 witness: `com/example/Foo` is present both under the directory root
`cls` (as `DirFoo`) and in the archive root `a.jar` (as `JarFoo`);
resolution returns `DirFoo` for both orders of the two roots. -/
theorem resolve_directory_priority_witness :
    resolve envC2 ["cls", "a.jar"] "com/example/Foo" = .ok ⟨"DirFoo"⟩ ∧
    resolve envC2 ["a.jar", "cls"] "com/example/Foo" = .ok ⟨"DirFoo"⟩ :=
  ⟨(resolve_directory_priority envC2 ["cls", "a.jar"] "com/example/Foo"
      ⟨"DirFoo"⟩ rfl).1,
   (resolve_directory_priority envC2 ["cls", "a.jar"] "com/example/Foo"
      ⟨"DirFoo"⟩ rfl).2 ["a.jar", "cls"] rfl rfl⟩

/-- C3 counterexample: on an empty root list the request `Foo` fails with
dependency-not-resolved, but the error payload is `Foo.class` — the
requested name with the class-file suffix appended — not the requested name
itself. -/
theorem resolve_miss_error_carries_suffixed_name :
    resolve envC3 [] "Foo" = .error (.dependencyNotResolved "Foo.class") ∧
    ("Foo.class" : String) ≠ "Foo" := by
  exact ⟨rfl, by decide⟩

/-- C3 (amended): if no directory candidate matches and every archive root
opens correctly but lacks the entry, `resolve` fails with the
dependency-not-resolved kind — never any other kind — carrying the requested
name with `.class` appended. -/
theorem resolve_miss_returns_dependency_not_resolved (env : Env)
    (paths : List String) (name : String)
    (hdir : dirEntryPaths env paths (name ++ ".class") = [])
    (hjar : ∀ p ∈ paths, strEndsWith p ".jar" = true →
      jarLookup env (name ++ ".class") p = .ok none) :
    resolve env paths name =
      .error (.dependencyNotResolved (name ++ ".class")) := by
  have h1 : dirHead env paths (name ++ ".class") = none := by
    simp [dirHead, dirItems, hdir]
  have h2 : jarHead env paths (name ++ ".class") = none := by
    unfold jarHead jarItems
    rw [filterMapOkId_all_ok_none]
    · rfl
    · intro x hx
      rcases List.mem_map.mp hx with ⟨p, hp, rfl⟩
      rcases List.mem_filter.mp hp with ⟨hmem, hjarp⟩
      exact hjar p hmem hjarp
  simp [resolve, h1, h2]

/-- C3 witness: a directory root with only non-matching entries and an
archive root that opens but has no entry for the name produce
`DependencyNotResolved "com/example/Missing.class"`. -/
theorem resolve_miss_returns_dependency_not_resolved_witness :
    resolve envC3w ["lib", "dep.jar"] "com/example/Missing" =
      .error (.dependencyNotResolved "com/example/Missing.class") :=
  resolve_miss_returns_dependency_not_resolved envC3w ["lib", "dep.jar"]
    "com/example/Missing" rfl (by decide)

/-- C4 counterexample: a walkdir error item (an I/O failure while
enumerating a directory root) is silently dropped by `entry.ok()` — here the
only directory root yields one error item, and `resolve` reports
dependency-not-resolved instead of returning that I/O failure.  So the
archive-lookup miss is not the only silently swallowed failure. -/
theorem resolve_swallows_walk_errors :
    envC4.walk "droot" = [.errEntry] ∧
    resolve envC4 ["droot"] "Foo" =
      .error (.dependencyNotResolved "Foo.class") :=
  ⟨rfl, rfl⟩

/-- C4 (amended): whatever item the directory phase produces first — success
or failure — is returned as is (so an open/parse failure on the first
matching directory candidate propagates, and neither later candidates nor
the archive phase are consulted); and dropping the non-`Ok`, non-UTF-8 walk
items from every directory enumeration never changes the result (those
enumeration failures are silently skipped). -/
theorem resolve_directory_error_propagates (env : Env) (paths : List String)
    (name : String) :
    (∀ r, dirHead env paths (name ++ ".class") = some r →
      resolve env paths name = r) ∧
    resolve
        { env with
          walk := fun p => (env.walk p).filter fun it => (WalkItem.okPath it).isSome }
        paths name =
      resolve env paths name := by
  constructor
  · intro r h
    simp [resolve, h]
  · have hdir : ∀ dep,
        dirHead
          { env with
            walk := fun p => (env.walk p).filter fun it => (WalkItem.okPath it).isSome }
          paths dep =
        dirHead env paths dep := by
      intro dep
      unfold dirHead dirItems dirEntryPaths dirLookup
      simp only [flatMap_walk_filter_isSome]
    have hjar : ∀ dep,
        jarHead
          { env with
            walk := fun p => (env.walk p).filter fun it => (WalkItem.okPath it).isSome }
          paths dep =
        jarHead env paths dep := by
      intro dep
      unfold jarHead jarItems jarLookup
      rfl
    simp [resolve, hdir, hjar]

/-- C4 witness: the directory root holds a matching but corrupt `Foo.class`
while the archive root `b.jar` holds a valid one; `resolve` returns the
class-format failure of the directory candidate instead of falling back. -/
theorem resolve_directory_error_propagates_witness :
    dirHead envC4w ["cls", "b.jar"] "Foo.class" =
      some (.error (.cofferErr ⟨"bad"⟩)) ∧
    resolve envC4w ["cls", "b.jar"] "Foo" = .error (.cofferErr ⟨"bad"⟩) :=
  ⟨rfl,
   (resolve_directory_error_propagates envC4w ["cls", "b.jar"] "Foo").1
     (.error (.cofferErr ⟨"bad"⟩)) rfl⟩

/-- C9 counterexample: an archive root that cannot be opened makes `resolve`
return the I/O error kind (`ResolutionError::IO` via the `#[from]`
conversion on `File::open`), not the declared archive-not-found kind
(`JarNotFound`), which `resolve` never constructs. -/
theorem resolve_unopenable_jar_gives_io_error :
    resolve envC9 ["a.jar"] "Foo" = .error (.ioErr ⟨"enoent"⟩) ∧
    (ResolutionError.ioErr ⟨"enoent"⟩).kind ≠ ErrKind.jarNotFound :=
  ⟨rfl, by decide⟩

/-- C9 (amended): when no directory candidate matches and the first archive
root in root-list order fails to open, `resolve` returns the I/O failure
kind (not archive-not-found); the five declared error kinds are pairwise
distinct. -/
theorem resolve_jar_open_failure_io_kind (env : Env) (paths : List String)
    (name j : String) (rest : List String) (e : IOErr)
    (hdir : dirEntryPaths env paths (name ++ ".class") = [])
    (hjars : paths.filter (fun p => strEndsWith p ".jar") = j :: rest)
    (hopen : env.openFile j = .error e) :
    resolve env paths name = .error (.ioErr e) ∧
    (ResolutionError.ioErr e).kind = ErrKind.ioFailure ∧
    [ErrKind.jarNotFound, ErrKind.dependencyNotResolved, ErrKind.ioFailure,
        ErrKind.zipFailure, ErrKind.cofferFailure].Pairwise (· ≠ ·) := by
  refine ⟨?_, rfl, by decide⟩
  have h1 : dirHead env paths (name ++ ".class") = none := by
    simp [dirHead, dirItems, hdir]
  have h2 : jarHead env paths (name ++ ".class") = some (.error (.ioErr e)) := by
    unfold jarHead jarItems
    rw [hjars]
    simp [jarLookup, Except.mapError, Except.bind, hopen, filterMapOkId]
  simp [resolve, h1, h2]

/-- C9 witness: the concrete unopenable `a.jar` behind an empty directory
root gives the I/O failure kind. -/
theorem resolve_jar_open_failure_io_kind_witness :
    resolve envC9 ["dirs", "a.jar"] "Bar" = .error (.ioErr ⟨"enoent"⟩) :=
  (resolve_jar_open_failure_io_kind envC9 ["dirs", "a.jar"] "Bar" "a.jar" []
    ⟨"enoent"⟩ rfl rfl rfl).1

/-!
Helper lemmas for the rendering claims.
-/

theorem getLast?_of_suffix {l1 l2 : List Char} (h : l1 <:+ l2) (hne : l1 ≠ []) :
    l2.getLast? = l1.getLast? := by
  obtain ⟨t, rfl⟩ := h
  exact List.getLast?_append_of_ne_nil t hne

theorem notEndsWithUndef_append_gt (x : String) : ¬ endsWithUndef (x ++ ">") := by
  intro h
  unfold endsWithUndef at h
  rw [String.data_append] at h
  have hlast := getLast?_of_suffix h (by decide)
  rw [@List.getLast?_append_of_ne_nil Char x.data (('>' : Char) :: [])
    (by simp)] at hlast
  exact absurd hlast (by decide)

theorem notEndsWithUndef_plain (i : Ident) (hp : i.plain) : ¬ endsWithUndef i.name := by
  intro h
  unfold endsWithUndef at h
  exact hp (h.subset (by decide))

/-!
Theorems for the rendering claims.
-/

/-- C5: for every optional `Type` whose head identifier is a bare name, the
full-form render is exactly the required-form render followed by
`\x20| undefined` (hence the two renders have identical generic-argument
text), the full form ends with the suffix, and the required form never
does. -/
theorem ts_optional_render_consistency (t : Ty) (hopt : t.optional = true)
    (hplain : t.name.plain) :
    codegenTy t false = codegenTy t true ++ undefSuffix ∧
    endsWithUndef (codegenTy t false) ∧
    ¬ endsWithUndef (codegenTy t true) := by
  obtain ⟨n, o, i⟩ := t
  simp only [Ty.optional] at hopt
  subst hopt
  simp only [Ty.name] at hplain
  have h1 : codegenTy (.mk n true i) false =
      codegenIdent n ++ codegenInner i ++ undefSuffix := by
    simp [codegenTy]
  have h2 : codegenTy (.mk n true i) true = codegenIdent n ++ codegenInner i := by
    simp [codegenTy, String.append_empty]
  refine ⟨by rw [h1, h2], ?_, ?_⟩
  · rw [h1]
    unfold endsWithUndef
    rw [String.data_append]
    exact List.suffix_append _ _
  · rw [h2]
    cases i with
    | none =>
      have : codegenIdent n ++ codegenInner none = n.name := by
        simp [codegenInner, codegenIdent, String.append_empty]
      rw [this]
      exact notEndsWithUndef_plain n hplain
    | some val =>
      have : codegenIdent n ++ codegenInner (some val) =
          (codegenIdent n ++ ("<" ++ String.intercalate ", " (codegenTyList val))) ++
            ">" := by
        simp [codegenInner, String.append_assoc]
      rw [this]
      exact notEndsWithUndef_append_gt _

/-- C5 witness: the optional `Array<number | undefined>` reference. -/
theorem ts_optional_render_consistency_witness :
    codegenTy tyC5 false = codegenTy tyC5 true ++ undefSuffix ∧
    endsWithUndef (codegenTy tyC5 false) ∧
    ¬ endsWithUndef (codegenTy tyC5 true) :=
  ts_optional_render_consistency tyC5 rfl (by decide)

/-- C6: a field with an optional type renders as the two-space-indented name,
`?`, a colon, and the required-form render of its type; with a non-optional
type the `?` is absent and the type is still the required form. -/
theorem ts_field_optional_marker (f : Field) :
    (f.type.optional = true →
      codegenField f =
        "  " ++ codegenIdent f.name ++ "?" ++ ": " ++ codegenTy f.type true ++ ";") ∧
    (f.type.optional = false →
      codegenField f =
        "  " ++ codegenIdent f.name ++ ": " ++ codegenTy f.type true ++ ";") := by
  constructor
  · intro hopt
    simp [codegenField, hopt]
  · intro hopt
    simp [codegenField, hopt, String.append_empty]

/-- C6 witness: the two fields of concrete scenario 1. -/
theorem ts_field_optional_marker_witness :
    codegenField fieldOptC6 =
      "  " ++ codegenIdent fieldOptC6.name ++ "?" ++ ": " ++
        codegenTy fieldOptC6.type true ++ ";" ∧
    codegenField fieldReqC6 =
      "  " ++ codegenIdent fieldReqC6.name ++ ": " ++
        codegenTy fieldReqC6.type true ++ ";" :=
  ⟨(ts_field_optional_marker fieldOptC6).1 rfl,
   (ts_field_optional_marker fieldReqC6).2 rfl⟩

/-- C7: the enum module emits a newline between the (optional) header part
and the enum content unconditionally — with a header the header is followed
by a blank line, without one the output starts with exactly one newline —
whereas the declaration and endpoint modules with no header (and no imports)
emit their content with nothing prepended. -/
theorem ts_enum_module_leading_newline (em : EnumModule) (sm : StructModule)
    (epm : EndpointModule) (h : String) :
    codegen (.enumModuleNode em) (.moduleHeader h) =
      some (h ++ "\n" ++ "\n" ++ ((em.content.map codegenEnum).getD "")) ∧
    codegen (.enumModuleNode em) .optsNone =
      some ("\n" ++ ((em.content.map codegenEnum).getD "")) ∧
    (sm.imports = none →
      codegen (.structModuleNode sm) .optsNone =
        some ((sm.content.map codegenStruct).getD "")) ∧
    (epm.imports = none →
      codegen (.endpointModuleNode epm) .optsNone =
        some (((epm.content.map fun items =>
            String.intercalate "\n\n" (items.map fun i => codegenMethod i epm.name) ++
              "\n\n").getD "") ++
          ((epm.content.map fun items =>
            "export \x7b\n" ++
              String.intercalate "\n" (items.map fun i =>
                "  _" ++ codegenIdent i.name ++ " as " ++ codegenIdent i.name ++ ",") ++
              "\n\x7d;").getD ""))) := by
  refine ⟨?_, ?_, ?_, ?_⟩
  · simp [codegen, codegenEnumModule, headerOf, String.append_assoc]
  · simp [codegen, codegenEnumModule, headerOf, String.empty_append]
  · intro himp
    simp [codegen, codegenStructModule, headerOf, himp, codegenImports,
      String.empty_append]
  · intro himp
    simp [codegen, codegenEndpointModule, headerOf, himp, codegenImports,
      String.empty_append]

/-- C7 witness: concrete scenario 3's enum module with and without a header,
and import-free declaration/endpoint modules. -/
theorem ts_enum_module_leading_newline_witness :
    codegen (.enumModuleNode enumModC7) (.moduleHeader "/** h */") =
      some ("/** h */" ++ "\n" ++ "\n" ++
        ((enumModC7.content.map codegenEnum).getD "")) ∧
    codegen (.enumModuleNode enumModC7) .optsNone =
      some ("\n" ++ ((enumModC7.content.map codegenEnum).getD "")) ∧
    codegen (.structModuleNode structModC7) .optsNone =
      some ((structModC7.content.map codegenStruct).getD "") ∧
    codegen (.endpointModuleNode epModC7) .optsNone =
      some (((epModC7.content.map fun items =>
          String.intercalate "\n\n" (items.map fun i => codegenMethod i epModC7.name) ++
            "\n\n").getD "") ++
        ((epModC7.content.map fun items =>
          "export \x7b\n" ++
            String.intercalate "\n" (items.map fun i =>
              "  _" ++ codegenIdent i.name ++ " as " ++ codegenIdent i.name ++ ",") ++
            "\n\x7d;").getD "")) :=
  ⟨(ts_enum_module_leading_newline enumModC7 structModC7 epModC7 "/** h */").1,
   (ts_enum_module_leading_newline enumModC7 structModC7 epModC7 "/** h */").2.1,
   (ts_enum_module_leading_newline enumModC7 structModC7 epModC7 "/** h */").2.2.1 rfl,
   (ts_enum_module_leading_newline enumModC7 structModC7 epModC7 "/** h */").2.2.2 rfl⟩

/-- C8: rendering a `Method` without `CodegenOpts::MethodEndpointName` is the
renderer's one fatal contract violation (modelled as `none`); with the
required context supplied — which for every non-method node is any options
value — the renderer always produces output. -/
theorem ts_method_requires_endpoint_name (k : ASTKind) (opts : CodegenOpts) :
    (¬ hasRequiredContext k opts → codegen k opts = none) ∧
    (hasRequiredContext k opts → (codegen k opts).isSome = true) := by
  cases k <;> cases opts <;> simp [hasRequiredContext, codegen]

/-- C8 witness: a method rendered without the endpoint-name option panics
(`none`); an identifier rendered with no context succeeds. -/
theorem ts_method_requires_endpoint_name_witness :
    codegen (.methodNode methodC8) .optsNone = none ∧
    (codegen (.identNode ⟨"x"⟩) .optsNone).isSome = true :=
  ⟨(ts_method_requires_endpoint_name (.methodNode methodC8) .optsNone).1
      (by simp [hasRequiredContext]),
   (ts_method_requires_endpoint_name (.identNode ⟨"x"⟩) .optsNone).2
      (by simp [hasRequiredContext])⟩

/-!
Equality of the two renderer implementations, bottom-up.
-/

mutual

theorem codegenTy_eq_asTs : ∀ t : Ty,
    codegenTy t false = asTsTy t ∧ codegenTy t true = asTsTyNonOpt t
  | .mk n o i => by
    refine ⟨?_, ?_⟩
    · simp [codegenTy, asTsTy, codegenInner_eq_asTs i, codegenIdent, asTsIdent]
    · simp [codegenTy, asTsTyNonOpt, codegenInner_eq_asTs i, codegenIdent,
        asTsIdent, String.append_empty]

theorem codegenInner_eq_asTs : ∀ i : Option (List Ty), codegenInner i = asTsInner i
  | none => rfl
  | some val => by
    simp [codegenInner, asTsInner, codegenTyList_eq_asTs val]

theorem codegenTyList_eq_asTs : ∀ l : List Ty, codegenTyList l = asTsTyList l
  | [] => rfl
  | t :: ts => by
    simp [codegenTyList, asTsTyList, (codegenTy_eq_asTs t).1,
      codegenTyList_eq_asTs ts]

end

theorem codegenTy_full_eq (t : Ty) : codegenTy t false = asTsTy t :=
  (codegenTy_eq_asTs t).1

theorem codegenTy_req_eq (t : Ty) : codegenTy t true = asTsTyNonOpt t :=
  (codegenTy_eq_asTs t).2

theorem codegenIdent_funeq : codegenIdent = asTsIdent := rfl

theorem codegenImport_funeq : codegenImport = asTsImport := rfl

theorem codegenImports_funeq : codegenImports = importsAsTs := rfl

theorem codegenField_funeq : codegenField = asTsField := by
  funext f
  simp [codegenField, asTsField, codegenTy_req_eq, codegenIdent_funeq]

theorem codegenStruct_funeq : codegenStruct = asTsDeclaration := by
  funext s
  simp [codegenStruct, asTsDeclaration, codegenField_funeq, codegenIdent_funeq]

theorem codegenParameter_funeq : codegenParameter = asTsParameter := by
  funext p
  simp [codegenParameter, asTsParameter, codegenTy_full_eq, codegenIdent_funeq]

theorem codegenMethod_funeq : codegenMethod = asTsMethod := by
  funext m n
  simp [codegenMethod, asTsMethod, codegenParameter_funeq, codegenTy_full_eq,
    codegenIdent_funeq]

/-- C10: the closed-enum dispatch renderer of fusion-generator-core and the
trait-based renderers of src/ast produce byte-identical output for every
declaration module and every endpoint module built from the same data, for
every optional header: `codegen` with `ModuleHeader(h)` (or no header) equals
`with_options(h).as_ts()`. -/
theorem codegen_eq_asTs_modules (sm : StructModule) (em : EndpointModule)
    (h : Option String) :
    codegen (.structModuleNode sm) (headerOpts h) =
      some (asTsDeclarationFile sm h) ∧
    codegen (.endpointModuleNode em) (headerOpts h) =
      some (asTsEndpointFile em h) := by
  have hh : headerOf (headerOpts h) = h := by cases h <;> rfl
  constructor
  · simp only [codegen, hh, codegenStructModule, asTsDeclarationFile,
      codegenImports_funeq, codegenStruct_funeq]
  · simp only [codegen, hh, codegenEndpointModule, asTsEndpointFile,
      codegenImports_funeq, codegenMethod_funeq, codegenIdent_funeq,
      List.map_map, Function.comp]
    rfl

end FusionGen
